import Mathlib

/-!
Verification of the branch synchronization and symbol-index engine of
GoSymbols (`symbol/branch.go`), via a shallow embedding.

Strings are modelled as Lean `String` (a wrapper of `List Char`); the
byte-oriented Go operations used by the source (`strings.Split` on a
single-character separator, `strings.Trim`, `strings.Index`,
`strings.ToLower` on ASCII data) coincide with the character-level
functions defined here on the ASCII data the program handles.
File contents are modelled as `Option String` (`none` = unreadable) or
`Option (List String)` (a readable file as its newline-terminated lines),
and the pieces of the filesystem that `branch.go` touches are collected
into an explicit state record.  Fallible external capabilities (mkdir,
archive copy, unzip, the symstore tool, pointer-file write) are modelled
by per-call boolean outcomes in an environment record.
-/

namespace GoSymbols

/-! ## Character-list helpers shared by the parsers -/

/-- Character cutset of `strings.Trim(str, " \r\n")` used by the
pointer-file readers (`GetLatestID`, `getLatestBuild`). -/
def cutset : List Char := [' ', '\r', '\n']

/-- Drop leading characters belonging to `cut` (left end of `strings.Trim`). -/
def trimCharsL (cut : List Char) (l : List Char) : List Char :=
  l.dropWhile (fun c => cut.contains c)

/-- Drop trailing characters belonging to `cut` (right end of `strings.Trim`). -/
def trimCharsR (cut : List Char) (l : List Char) : List Char :=
  (trimCharsL cut l.reverse).reverse

/-- `strings.Trim(s, cut)`: drop characters of `cut` from both ends. -/
def trimChars (cut : List Char) (l : List Char) : List Char :=
  trimCharsL cut (trimCharsR cut l)

/-- `strings.Trim` on `String`. -/
def trimStr (cut : List Char) (s : String) : String :=
  String.mk (trimChars cut s.data)

/-- `bufio.Reader.ReadString('\n')` on the start of a file: the characters
up to and including the first newline, or the whole content when the file
holds no newline. -/
def readLine : List Char → List Char
  | [] => []
  | c :: rest => if c = '\n' then [c] else c :: readLine rest

/-- One pointer-file read as done by `GetLatestID` and `getLatestBuild`:
the first line, trimmed of spaces, carriage returns and newlines. -/
def readTrimLine (s : String) : String :=
  String.mk (trimChars cutset (readLine s.data))

/-- `strings.Split` on a single-character separator (the source only ever
splits on `","` and `"\\"`). -/
def splitOnChar (sep : Char) : List Char → List (List Char)
  | [] => [[]]
  | c :: rest =>
    match splitOnChar sep rest with
    | [] => [[]]
    | cur :: parts =>
      if c = sep then [] :: cur :: parts else (c :: cur) :: parts

/-- `strings.Split` on `String`s. -/
def splitFields (sep : Char) (s : String) : List String :=
  (splitOnChar sep s.data).map String.mk

/-- First suffix of `l` strictly after the first occurrence of `pat`
(the `strings.Index` + slice idiom), `none` when `pat` does not occur. -/
def subsAfter (pat : List Char) : List Char → Option (List Char)
  | [] => if List.isPrefixOf pat [] then some [] else none
  | c :: rest =>
    if List.isPrefixOf pat (c :: rest) then some (List.drop pat.length (c :: rest))
    else subsAfter pat rest

/-- `strings.Index(s, pat) != -1`: substring containment. -/
def containsStr (s pat : String) : Bool :=
  (subsAfter pat.data s.data).isSome

/-- `strings.ToLower` (ASCII case folding, which covers the program's
symbol names and path tokens). -/
def lowerStr (s : String) : String := String.mk (s.data.map Char.toLower)

/-! ## Data model (`Branch`, `Build`, `Symbol`) -/

/-- Modelled from the spec: the `Branch` record type lives outside the
provided source file; its fields are the attributes used by `branch.go`
and listed in the spec's data model (build-server name, store name, store
path, build path, latest committed build version, builds count,
last-update timestamp). -/
structure Branch where
  BuildName : String
  StoreName : String
  StorePath : String
  BuildPath : String
  LatestBuild : String
  BuildsCount : Nat
  UpdateDate : String
deriving DecidableEq

/-- Modelled from the spec: the `Build` record type lives outside the
provided source file; its fields are exactly those assigned by
`ParseBuilds` and `addSymStore`. -/
structure Build where
  ID : String
  Date : String
  Branch : String
  Version : String
  Comment : String
deriving DecidableEq

/-- Modelled from the spec: the `Symbol` record type lives outside the
provided source file; its fields are exactly those assigned by
`ParseSymbols`. -/
structure Symbol where
  Name : String
  Hash : String
  Path : String
  Arch : String
  Version : String
deriving DecidableEq

/-- `ArchX86` constant of `branch.go`. -/
def ArchX86 : String := "x86"

/-- `ArchX64` constant of `branch.go`. -/
def ArchX64 : String := "x64"

/-- `unzipDir` constant of `branch.go` (staging-directory marker). -/
def unzipDir : String := "000Unzip"

/-! ## Registry state

`BrBuilder`'s mutable pieces, together with the files under the branch's
administrative directory that the engine reads and writes. -/

/-- One `BrBuilder` instance plus the on-disk files it owns:
`localLatest` / `remoteLatest` are the raw contents of the local and
build-server `latestbuild` pointer files, `lastid` the raw content of
`000Admin/lastid.txt`, and `stagingExists` whether the `000Unzip`
staging subdirectory currently exists on disk. -/
structure SyncState where
  branch : Branch
  builds : List (String × Build)
  localLatest : Option String
  remoteLatest : Option String
  lastid : Option String
  stagingExists : Bool
deriving DecidableEq

/-- Go map assignment `m[k] = v`: insert or replace by key. -/
def mapInsert (m : List (String × Build)) (k : String) (v : Build) :
    List (String × Build) :=
  (k, v) :: m.filter (fun p => p.1 ≠ k)

/-- `getBuild(version, id)`: scan the builds map by version first (when
`version` is nonempty), then look up by identifier (when `id` is
nonempty). -/
def getBuild (builds : List (String × Build)) (version id : String) :
    Option Build :=
  match (if version = "" then none
         else (builds.map Prod.snd).find? (fun bd => bd.Version == version)) with
  | some bd => some bd
  | none => if id = "" then none else List.lookup id builds

/-- `addBuild`: bump `BuildsCount`, stamp `UpdateDate` with the build's
date, and insert the build into the map by identifier. -/
def addBuildReg (st : SyncState) (bd : Build) : SyncState :=
  { st with
    branch := { st.branch with
                BuildsCount := st.branch.BuildsCount + 1
                UpdateDate := bd.Date }
    builds := mapInsert st.builds bd.ID bd }

/-- `GetLatestID`: read `000Admin/lastid.txt`; empty string when the file
cannot be opened, otherwise the first line trimmed of `" \r\n"`. -/
def GetLatestID (file : Option String) : String :=
  match file with
  | none => ""
  | some c => readTrimLine c

/-- Second definition for the refinement comparison of claim C8, following
the spec's words: "returns the first line of the file trimmed of spaces,
carriage returns and newlines". -/
def specFirstLineTrimmed (c : String) : String :=
  String.mk (trimChars cutset (c.data.takeWhile (fun ch => ch ≠ '\n')))

/-! ## Build history parser (`ParseBuilds`)

The date fields are parsed with Go's
`time.ParseInLocation("01/02/2006 15:04:05", dateStr, time.Local)`: the
zero-padded tokens `01`, `02`, `04`, `05` are fixed-width (exactly two
digits for month, day, minute, second), the year token `2006` takes four
digits, but the hour token `15` is not zero-padded and accepts one or
two digits (two when the second character is also a digit); the literal
separators of the layout must match, no text may remain, and the fields
are range-checked (month 1..12, day 1..days-in-month, hour ≤ 23,
minute/second ≤ 59).  On success the wall-clock fields are reformatted
with layout `"2006-01-02 15:04:05"`, which zero-pads the hour back to
two digits. -/

/-- Wall-clock fields produced by a successful parse of
`"01/02/2006 15:04:05"`. -/
structure DateT where
  month : Nat
  day : Nat
  year : Nat
  hour : Nat
  minute : Nat
  second : Nat
deriving DecidableEq

/-- ASCII decimal digit test. -/
def isDigitCh (c : Char) : Bool := '0' ≤ c && c ≤ '9'

/-- Read exactly `k` decimal digits, accumulating their value. -/
def readDigits : Nat → Nat → List Char → Option (Nat × List Char)
  | 0, acc, l => some (acc, l)
  | k + 1, acc, l =>
    match l with
    | [] => none
    | c :: rest =>
      if isDigitCh c then readDigits k (acc * 10 + (c.toNat - '0'.toNat)) rest
      else none

/-- Consume one expected literal character of the layout. -/
def expectCh (c : Char) : List Char → Option (List Char)
  | [] => none
  | d :: rest => if d = c then some rest else none

/-- Read one or two decimal digits, greedily taking the second when it
is a digit — Go's `getnum(value, false)`, used for the non-padded hour
token `15`. -/
def readFlexNum : List Char → Option (Nat × List Char)
  | [] => none
  | c :: rest =>
    if isDigitCh c then
      match rest with
      | d :: rest2 =>
        if isDigitCh d then
          some ((c.toNat - '0'.toNat) * 10 + (d.toNat - '0'.toNat), rest2)
        else
          some (c.toNat - '0'.toNat, d :: rest2)
      | [] => some (c.toNat - '0'.toNat, [])
    else none

/-- Gregorian leap-year rule used by Go's `time` package. -/
def isLeap (y : Nat) : Bool :=
  y % 4 = 0 && (y % 100 ≠ 0 || y % 400 = 0)

/-- Days in a month, as validated by Go's date parser. -/
def daysIn (m y : Nat) : Nat :=
  if m = 2 then (if isLeap y then 29 else 28)
  else if m = 4 ∨ m = 6 ∨ m = 9 ∨ m = 11 then 30
  else 31

/-- `time.ParseInLocation("01/02/2006 15:04:05", s, time.Local)` restricted
to the wall-clock fields (the location only fixes the zone, which the
reformatting does not use).  Month, day, minute and second are
fixed-width two-digit tokens; the hour token `15` is non-padded and
takes one or two digits. -/
def parseGoDate (s : String) : Option DateT := do
  let (mo, r1) ← readDigits 2 0 s.data
  let r2 ← expectCh '/' r1
  let (dy, r3) ← readDigits 2 0 r2
  let r4 ← expectCh '/' r3
  let (yr, r5) ← readDigits 4 0 r4
  let r6 ← expectCh ' ' r5
  let (hh, r7) ← readFlexNum r6
  let r8 ← expectCh ':' r7
  let (mi, r9) ← readDigits 2 0 r8
  let r10 ← expectCh ':' r9
  let (sec, r11) ← readDigits 2 0 r10
  if r11 = [] ∧ 1 ≤ mo ∧ mo ≤ 12 ∧ 1 ≤ dy ∧ dy ≤ daysIn mo yr ∧
      hh ≤ 23 ∧ mi ≤ 59 ∧ sec ≤ 59 then
    some ⟨mo, dy, yr, hh, mi, sec⟩
  else
    none

/-- Two-digit zero-padded decimal (layout tokens `01`, `02`, `15`, `04`,
`05`; all formatted values are below 100). -/
def twoDig (n : Nat) : String :=
  String.mk [Char.ofNat (48 + n / 10 % 10), Char.ofNat (48 + n % 10)]

/-- Four-digit zero-padded decimal (layout token `2006`; parsed years are
below 10000). -/
def fourDig (n : Nat) : String :=
  String.mk [Char.ofNat (48 + n / 1000 % 10), Char.ofNat (48 + n / 100 % 10),
             Char.ofNat (48 + n / 10 % 10), Char.ofNat (48 + n % 10)]

/-- `time.Time.Format("2006-01-02 15:04:05")`. -/
def formatDate (d : DateT) : String :=
  fourDig d.year ++ "-" ++ twoDig d.month ++ "-" ++ twoDig d.day ++ " " ++
    twoDig d.hour ++ ":" ++ twoDig d.minute ++ ":" ++ twoDig d.second

/-- The date string `ss[3] + " " + ss[4]` after the parse-or-keep-verbatim
step of `ParseBuilds`. -/
def rebuildDate (raw : String) : String :=
  match parseGoDate raw with
  | some d => formatDate d
  | none => raw

/-- Cutset of the per-line trim `strings.Trim(str, "\r\n")`. -/
def crlf : List Char := ['\r', '\n']

/-- Cutset of the quote trims `strings.Trim(s, "\"")`. -/
def quoteCut : List Char := ['"']

/-- One line of `server.txt`: trim `"\r\n"`, split on commas, skip when
fewer than 8 fields, otherwise build the `Build` record positionally. -/
def lineToBuild (line : String) : Option Build :=
  let ss := splitFields ',' (trimStr crlf line)
  if ss.length < 8 then none
  else
    some { ID := ss.getD 0 ""
           Date := rebuildDate (ss.getD 3 "" ++ " " ++ ss.getD 4 "")
           Branch := trimStr quoteCut (ss.getD 5 "")
           Version := trimStr quoteCut (ss.getD 6 "")
           Comment := trimStr quoteCut (ss.getD 7 "") }

/-- A well-formed history line: at least 8 comma-separated fields. -/
def wellFormed (line : String) : Bool :=
  decide (8 ≤ (splitFields ',' (trimStr crlf line)).length)

/-- Error results of `ParseBuilds`: the file-open failure, or an error
propagated from the per-build callback. -/
inductive PBErr where
  | openFail : PBErr
  | cb : String → PBErr
deriving DecidableEq

/-- The read loop of `ParseBuilds` over `server.txt` lines: per well-formed
line, increment the running total, commit via `addBuild`, advance the
latest-build field, then hand the build to the callback, stopping on
callback failure with the count so far. -/
def parseBuildsLoop (handler : Build → Option String) (st : SyncState)
    (total : Nat) : List String → Nat × Option PBErr × SyncState
  | [] => (total, none, st)
  | line :: rest =>
    match lineToBuild line with
    | none => parseBuildsLoop handler st total rest
    | some bd =>
      let st' := { addBuildReg st bd with
                   branch := { (addBuildReg st bd).branch with
                               LatestBuild := bd.Version } }
      match handler bd with
      | some e => (total + 1, some (PBErr.cb e), st')
      | none => parseBuildsLoop handler st' (total + 1) rest

/-- The in-memory replay path of `ParseBuilds`: iterate the builds map,
calling the callback per build; the total is incremented only after the
callback accepts. -/
def replayLoop (handler : Build → Option String) (st : SyncState)
    (total : Nat) : List (String × Build) → Nat × Option PBErr × SyncState
  | [] => (total, none, st)
  | (_, bd) :: rest =>
    match handler bd with
    | some e => (total, some (PBErr.cb e), st)
    | none => replayLoop handler st (total + 1) rest

/-- `ParseBuilds(handler)`: a `none` handler defaults to accept-all; a
nonempty in-memory map is replayed instead of the file; otherwise the
history file is opened (error when unreadable), `BuildsCount` is reset to
zero, and the lines are parsed. -/
def ParseBuilds (handlerOpt : Option (Build → Option String))
    (st : SyncState) (history : Option (List String)) :
    Nat × Option PBErr × SyncState :=
  let handler := handlerOpt.getD (fun _ => none)
  if st.builds ≠ [] then
    replayLoop handler st 0 st.builds
  else
    match history with
    | none => (0, some PBErr.openFail, st)
    | some lines =>
      parseBuildsLoop handler
        { st with branch := { st.branch with BuildsCount := 0 } } 0 lines

/-! ## Symbol classifier and symbol-index parser (`ParseSymbols`) -/

/-- `skipFn` of `ParseSymbols`: the loop over `config.SymExcludeList`
comparing `strings.ToLower(name) == v` is membership of the lowercased
name in the exclude list.  The list itself comes from the `config`
package, which is outside the provided source; it is carried here as a
parameter. -/
def skipFn (excl : List String) (name : String) : Bool :=
  decide (lowerStr name ∈ excl)

/-- `archDetect` of `ParseSymbols`: lowercase the path and search for the
tokens `"x64"` and `"amd64"`; any hit classifies 64-bit, absence 32-bit. -/
def archDetect (sympath : String) : String :=
  if ["x64", "amd64"].any (fun tok => containsStr (lowerStr sympath) tok) then
    ArchX64
  else
    ArchX86

/-- Strip the prefix of a store path up to and including the first
occurrence of the `000Unzip` staging marker, when present. -/
def stripUnzip (spath : String) : String :=
  match subsAfter unzipDir.data spath.data with
  | some rest => String.mk rest
  | none => spath

/-- One line of a per-build symbol index against the dedup set `seen`:
trim `"\r\n"`, split on commas (≥ 2 fields required), split the first
unquoted field on `'\\'` into exactly `[name, hash]`, skip excluded names
and already-seen hashes, then construct the `Symbol` with the stripped
path and its detected architecture. -/
def symFromLine (excl : List String) (version : String) (seen : List String)
    (line : String) : Option Symbol :=
  let ss := splitFields ',' (trimStr crlf line)
  if ss.length < 2 then none
  else
    let pName := splitFields '\\' (trimStr quoteCut (ss.getD 0 ""))
    if pName.length ≠ 2 then none
    else if skipFn excl (pName.getD 0 "") then none
    else if pName.getD 1 "" ∈ seen then none
    else
      let spath := stripUnzip (trimStr quoteCut (ss.getD 1 ""))
      some { Name := pName.getD 0 ""
             Hash := pName.getD 1 ""
             Path := spath
             Arch := archDetect spath
             Version := version }

/-- The stream of `Symbol`s one `ParseSymbols` pass constructs and hands
to its callback, in order, ignoring the callback's verdicts (the pure
content of the loop at lines 530-576 of `branch.go`). -/
def emitted (excl : List String) (version : String) (seen : List String) :
    List String → List Symbol
  | [] => []
  | line :: rest =>
    match symFromLine excl version seen line with
    | none => emitted excl version seen rest
    | some sym => sym :: emitted excl version (sym.Hash :: seen) rest

/-- Error results of `ParseSymbols`. -/
inductive PSErr where
  | buildNotExist : PSErr
  | openFail : PSErr
  | cb : String → PSErr
deriving DecidableEq

/-- The read loop of `ParseSymbols`: per constructed symbol, invoke the
callback; on failure return the count so far (not incremented), otherwise
increment the total and record the hash as seen. -/
def runSyms (excl : List String) (version : String)
    (handler : Symbol → Option String) (seen : List String) (total : Nat) :
    List String → Nat × Option PSErr
  | [] => (total, none)
  | line :: rest =>
    match symFromLine excl version seen line with
    | none => runSyms excl version handler seen total rest
    | some sym =>
      match handler sym with
      | some e => (total, some (PSErr.cb e))
      | none => runSyms excl version handler (sym.Hash :: seen) (total + 1) rest

/-- `ParseSymbols(buildID, handler)`: resolve the build (error
`ErrBuildNotExist` when absent), open the per-build index file (error when
unreadable), default a `none` handler to accept-all, then run the loop. -/
def ParseSymbols (excl : List String) (st : SyncState)
    (file : Option (List String)) (buildID : String)
    (handlerOpt : Option (Symbol → Option String)) : Nat × Option PSErr :=
  match getBuild st.builds "" buildID with
  | none => (0, some PSErr.buildNotExist)
  | some build =>
    match file with
    | none => (0, some PSErr.openFail)
    | some lines =>
      runSyms excl build.Version (handlerOpt.getD (fun _ => none)) [] 0 lines

/-- The symbol stream of one `ParseSymbols` call (build already resolved
to its version string): what the call passes to its callback. -/
def parseSymbolsStream (excl : List String) (version : String)
    (lines : List String) : List Symbol :=
  emitted excl version [] lines

/-- Position and message of the first symbol of a stream rejected by the
callback. -/
def firstFail (handler : Symbol → Option String) :
    List Symbol → Option (Nat × String)
  | [] => none
  | sym :: rest =>
    match handler sym with
    | some e => some (0, e)
    | none => (firstFail handler rest).map (fun p => (p.1 + 1, p.2))

/-! ## Sync workflow (`AddBuild`)

The external capabilities invoked by `AddBuild` — `os.MkdirAll` on the
staging directory, the archive copy (`getSymbols`), `util.Unzip`, the
symstore tool invocation (`addSymStore`), and the local pointer-file
write (`updateLatestBuild`) — are modelled by their per-call outcomes in
`SyncEnv`.  `newLastid` is the content the tool leaves in `lastid.txt`
on success, `now` / `comment` the two timestamp strings `addSymStore`
formats from its start time. -/

/-- Outcomes of the external capabilities for one `AddBuild` call. -/
structure SyncEnv where
  mkdirOk : Bool
  copyOk : Bool
  unzipOk : Bool
  toolOk : Bool
  writeOk : Bool
  newLastid : Option String
  now : String
  comment : String
deriving DecidableEq

/-- Failures `AddBuild` can propagate, by stage. -/
inductive SyncErr where
  | invalidRemote : SyncErr
  | mkdirFail : SyncErr
  | copyFail : SyncErr
  | unzipFail : SyncErr
  | toolFail : SyncErr
  | writeFail : SyncErr
deriving DecidableEq

deriving instance DecidableEq for Except

/-- The deferred `os.RemoveAll(b.symPath)`: the staging subdirectory no
longer exists. -/
def clearStaging (st : SyncState) : SyncState :=
  { st with stagingExists := false }

/-- `getLatestBuild(true)` with its error ignored, as `AddBuild` uses it:
the trimmed first line of the local pointer file, empty when unreadable. -/
def localLatestVal (st : SyncState) : String :=
  match st.localLatest with
  | none => ""
  | some c => readTrimLine c

/-- The version `AddBuild` synchronizes: the argument when nonempty,
otherwise the trimmed first line of the build server's pointer file
(`none` when that file is unreadable). -/
def resolveLatest (v : String) (st : SyncState) : Option String :=
  if v = "" then st.remoteLatest.map readTrimLine else some v

/-- The staged tail of `AddBuild` once a new version must be committed:
create the staging directory, copy the archive, extract it, run the
store tool (which rewrites `lastid.txt` and yields the `Build` record
with `ID := GetLatestID()`), write the local pointer file, then commit
via `addBuild` and set `LatestBuild`; every failure aborts with nothing
committed, and the deferred removal clears staging on every exit after
its creation. -/
def stageAndCommit (env : SyncEnv) (st : SyncState) (latest : String) :
    Except SyncErr Unit × SyncState :=
  if env.mkdirOk = false then (Except.error SyncErr.mkdirFail, st)
  else if env.copyOk = false then (Except.error SyncErr.copyFail, clearStaging st)
  else if env.unzipOk = false then (Except.error SyncErr.unzipFail, clearStaging st)
  else if env.toolOk = false then (Except.error SyncErr.toolFail, clearStaging st)
  else
    let st1 := { st with lastid := env.newLastid }
    let bd : Build := { ID := GetLatestID env.newLastid
                        Date := env.now
                        Branch := st.branch.StoreName
                        Version := latest
                        Comment := env.comment }
    if env.writeOk = false then (Except.error SyncErr.writeFail, clearStaging st1)
    else
      let st2 := addBuildReg { st1 with localLatest := some latest } bd
      (Except.ok (),
       clearStaging { st2 with
                      branch := { st2.branch with LatestBuild := latest } })

/-- `AddBuild(buildVersion)`: resolve the version (empty argument reads
the build-server pointer, failing when it is unreadable, and returns
no-op success when it equals the local pointer); return no-op success
when the registry already holds a build for the resolved version;
otherwise stage and commit. -/
def AddBuild (env : SyncEnv) (v : String) (st : SyncState) :
    Except SyncErr Unit × SyncState :=
  match resolveLatest v st with
  | none => (Except.error SyncErr.invalidRemote, st)
  | some latest =>
    if v = "" ∧ latest = localLatestVal st then (Except.ok (), st)
    else if (getBuild st.builds latest "").isSome then (Except.ok (), st)
    else stageAndCommit env st latest

/-- The conditions under which `AddBuild` exits before creating the
staging directory: unreadable remote pointer, already-current branch, or
a registry hit for the resolved version. -/
def earlyStop (v : String) (st : SyncState) : Bool :=
  match resolveLatest v st with
  | none => true
  | some latest =>
    (decide (v = "" ∧ latest = localLatestVal st)) ||
      (getBuild st.builds latest "").isSome

/-! ## Snapshot (`Persist` / `Load`)

Modelled from the spec: the source serializes `b.Branch` with
`encoding/gob`, a black-box encoder from outside this repository; per the
spec only in-process round-trip fidelity of the opaque encoding is
required, so the snapshot is modelled by an explicit length-prefixed
encoding of the `Branch` fields. -/

/-- One token of the snapshot encoding: a length or count, or one
character of a field. -/
abbrev SnapTok : Type := Sum Nat Char

/-- Length-prefixed encoding of one string field. -/
def encodeStr (s : String) : List SnapTok :=
  Sum.inl s.length :: s.data.map Sum.inr

/-- Snapshot encoding of a `Branch` record (`Persist`'s file content). -/
def encodeBranch (b : Branch) : List SnapTok :=
  encodeStr b.BuildName ++ encodeStr b.StoreName ++ encodeStr b.StorePath ++
    encodeStr b.BuildPath ++ encodeStr b.LatestBuild ++
    encodeStr b.UpdateDate ++ ([Sum.inl b.BuildsCount] : List SnapTok)

/-- Decode exactly `n` character tokens. -/
def decodeChars : Nat → List SnapTok → Option (List Char × List SnapTok)
  | 0, rest => some ([], rest)
  | n + 1, toks =>
    match toks with
    | Sum.inr c :: rest => (decodeChars n rest).map (fun p => (c :: p.1, p.2))
    | _ => none

/-- Decode one length-prefixed string field. -/
def decodeStr : List SnapTok → Option (String × List SnapTok)
  | Sum.inl n :: rest => (decodeChars n rest).map (fun p => (String.mk p.1, p.2))
  | _ => none

/-- Snapshot decoding of a `Branch` record (`Load`'s file read). -/
def decodeBranch (toks : List SnapTok) : Option Branch := do
  let (bn, r1) ← decodeStr toks
  let (sn, r2) ← decodeStr r1
  let (sp, r3) ← decodeStr r2
  let (bp, r4) ← decodeStr r3
  let (lb, r5) ← decodeStr r4
  let (ud, r6) ← decodeStr r5
  match r6 with
  | [Sum.inl cnt] =>
    some { BuildName := bn, StoreName := sn, StorePath := sp, BuildPath := bp
           LatestBuild := lb, BuildsCount := cnt, UpdateDate := ud }
  | _ => none

/-- `Persist()`: write the encoded `Branch` record to the snapshot file
under the administrative directory. -/
def Persist (b : Branch) : List SnapTok := encodeBranch b

/-- `Load()` on a fresh registry instance: decode the snapshot file into
the instance's `Branch` record (`none` models a failed load). -/
def Load (file : List SnapTok) : Option Branch := decodeBranch file

/-! ## Concrete instances used by the example theorems -/

/-- A freshly initialized branch record. -/
def branch0 : Branch :=
  { BuildName := "", StoreName := "", StorePath := "", BuildPath := ""
    LatestBuild := "", BuildsCount := 0, UpdateDate := "" }

/-- A fresh registry state: empty maps, no pointer files yet. -/
def st0 : SyncState :=
  { branch := branch0, builds := [], localLatest := none, remoteLatest := none
    lastid := none, stagingExists := false }

/-- The spec's sample `server.txt` line. -/
def sampleHistoryLine : String :=
  "0000000001,add,file,07/04/2017,14:44:14,\"UDPv6.5U2\",\"4175.2-538\",\"2017/7/4_14:44:14\","

/-- The `Build` record the sample line parses to. -/
def sampleBuild : Build :=
  { ID := "0000000001", Date := "2017-07-04 14:44:14", Branch := "UDPv6.5U2"
    Version := "4175.2-538", Comment := "2017/7/4_14:44:14" }

/-- The comma-separated fields of the sample line (note the trailing
empty field produced by the final comma). -/
def sampleFields : List String :=
  ["0000000001", "add", "file", "07/04/2017", "14:44:14", "\"UDPv6.5U2\"",
   "\"4175.2-538\"", "\"2017/7/4_14:44:14\"", ""]

/-- A callback that rejects every build. -/
def hFailStop : Build → Option String := fun _ => some "stop"

/-- Registry state after `ParseBuilds` committed the sample build and the
callback failed on it. -/
def c10After : SyncState :=
  { branch := { BuildName := "", StoreName := "", StorePath := "", BuildPath := ""
                LatestBuild := "4175.2-538", BuildsCount := 1
                UpdateDate := "2017-07-04 14:44:14" }
    builds := [("0000000001", sampleBuild)]
    localLatest := none, remoteLatest := none, lastid := none
    stagingExists := false }

/-- A build already present in the registry under id `0000000001`. -/
def c1Build : Build :=
  { ID := "0000000001", Date := "2017-07-04 14:44:14", Branch := "UDPv6.5U2"
    Version := "4175.2-538", Comment := "c" }

/-- Registry state holding `c1Build`. -/
def c1State : SyncState :=
  { branch := branch0, builds := [("0000000001", c1Build)]
    localLatest := none, remoteLatest := none, lastid := none
    stagingExists := false }

/-- A symbol-index line for hash `AAAA1111`. -/
def c1LineA : String := "\"a.pdb\\AAAA1111\",\"S:\\t\\000Unzip\\a.pdb\""

/-- A symbol-index line for hash `BBBB2222`. -/
def c1LineB : String := "\"b.pdb\\BBBB2222\",\"S:\\t\\000Unzip\\x64\\b.pdb\""

/-- A callback that rejects exactly the symbol with hash `BBBB2222`. -/
def c1HandlerB : Symbol → Option String :=
  fun s => if s.Hash = "BBBB2222" then some "boom2" else none

/-- A per-symbol callback that rejects every symbol. -/
def hFailStopSym : Symbol → Option String := fun _ => some "boom"

/-- An index whose lines exercise exclusion (uppercase variant of a
listed name), hash deduplication (repeated hash `AAAA1111`) and two
retained symbols. -/
def c4Lines : List String :=
  ["\"EXCLUDED.PDB\\HHHH0000\",\"S:\\t\\000Unzip\\EXCLUDED.PDB\"",
   c1LineA,
   "\"a2.pdb\\AAAA1111\",\"S:\\t\\000Unzip\\a2.pdb\"",
   c1LineB]

/-- A registry state whose `BuildsCount` field is positive while its
in-memory builds map is empty (the situation after `Load` of a snapshot,
before any parse). -/
def c2State : SyncState :=
  { branch := { branch0 with BuildsCount := 1 }
    builds := [], localLatest := none, remoteLatest := none, lastid := none
    stagingExists := false }

/-- An environment in which every external capability succeeds. -/
def envOk : SyncEnv :=
  { mkdirOk := true, copyOk := true, unzipOk := true, toolOk := true
    writeOk := true, newLastid := some "0000000002"
    now := "2018-01-02 03:04:05", comment := "2018-01-02_03:04:05" }

/-- An environment in which the archive copy fails. -/
def envCopyFail : SyncEnv :=
  { envOk with copyOk := false }

/-- A branch that is already current: the remote pointer file holds the
version the local pointer file holds. -/
def st5 : SyncState :=
  { branch := branch0, builds := [], localLatest := some " v1 "
    remoteLatest := some "v1\n", lastid := none, stagingExists := false }

/-- A build for version `v2` used for the registry-hit instance. -/
def bdV2 : Build :=
  { ID := "0000000009", Date := "d", Branch := "b", Version := "v2"
    Comment := "c" }

/-- A registry state already holding a build for version `v2`. -/
def st5r : SyncState :=
  { branch := branch0, builds := [("0000000009", bdV2)]
    localLatest := some "v1", remoteLatest := some "v1", lastid := none
    stagingExists := false }

/-- A state with a new build `v2` on the build server, ready to sync. -/
def st6 : SyncState :=
  { branch := branch0, builds := [], localLatest := some "v1"
    remoteLatest := some "v2", lastid := some "0000000001\n"
    stagingExists := false }

/-- The build `AddBuild` commits when syncing `st6` under `envOk`. -/
def bd6 : Build :=
  { ID := "0000000002", Date := "2018-01-02 03:04:05", Branch := ""
    Version := "v2", Comment := "2018-01-02_03:04:05" }

/-- The state after the successful sync of `st6` under `envOk`. -/
def st6After : SyncState :=
  { branch := { BuildName := "", StoreName := "", StorePath := "", BuildPath := ""
                LatestBuild := "v2", BuildsCount := 1
                UpdateDate := "2018-01-02 03:04:05" }
    builds := [("0000000002", bd6)]
    localLatest := some "v2", remoteLatest := some "v2"
    lastid := some "0000000002", stagingExists := false }

/-! # Theorems

## Trimming lemmas -/

theorem trimCharsR_eq_rdropWhile (cut l : List Char) :
    trimCharsR cut l = List.rdropWhile (fun c => cut.contains c) l := rfl

theorem mem_of_mem_dropWhile {p : Char → Bool} {a : Char} {l : List Char}
    (h : a ∈ l.dropWhile p) : a ∈ l := by
  obtain ⟨pre, hpre⟩ := List.dropWhile_suffix p (l := l)
  rw [← hpre]
  exact List.mem_append_right _ h

theorem mem_of_mem_trimChars {cut : List Char} {a : Char} {l : List Char}
    (h : a ∈ trimChars cut l) : a ∈ l := by
  unfold trimChars trimCharsL trimCharsR at h
  have h1 : a ∈ (l.reverse.dropWhile (fun c => cut.contains c)).reverse :=
    mem_of_mem_dropWhile h
  rw [List.mem_reverse] at h1
  have h2 := mem_of_mem_dropWhile h1
  rwa [List.mem_reverse] at h2

theorem trimChars_idem (cut l : List Char) :
    trimChars cut (trimChars cut l) = trimChars cut l := by
  unfold trimChars trimCharsL
  rw [trimCharsR_eq_rdropWhile, trimCharsR_eq_rdropWhile]
  by_cases ht :
      List.dropWhile (fun c => cut.contains c)
        (List.rdropWhile (fun c => cut.contains c) l) = []
  · rw [ht]
    simp [List.rdropWhile, List.dropWhile]
  · have hy :
        List.rdropWhile (fun c => cut.contains c)
          (List.dropWhile (fun c => cut.contains c)
            (List.rdropWhile (fun c => cut.contains c) l)) =
        List.dropWhile (fun c => cut.contains c)
          (List.rdropWhile (fun c => cut.contains c) l) := by
      apply List.rdropWhile_eq_self_iff.mpr
      intro hl
      have hyne : List.rdropWhile (fun c => cut.contains c) l ≠ [] := by
        intro hnil
        rw [hnil] at ht
        exact ht rfl
      obtain ⟨pre, hpre⟩ :=
        List.dropWhile_suffix (l := List.rdropWhile (fun c => cut.contains c) l)
          (fun c => cut.contains c)
      have hd :
          (List.dropWhile (fun c => cut.contains c)
            (List.rdropWhile (fun c => cut.contains c) l)).getLast? =
          (List.rdropWhile (fun c => cut.contains c) l).getLast? := by
        conv_rhs => rw [← hpre]
        exact (List.getLast?_append_of_ne_nil pre hl).symm
      rw [List.getLast?_eq_getLast_of_ne_nil hl,
          List.getLast?_eq_getLast_of_ne_nil hyne] at hd
      rw [Option.some.inj hd]
      exact List.rdropWhile_last_not _ _ hyne
    rw [hy]
    exact List.dropWhile_idempotent _ _

theorem trimCharsR_concat_mem (cut : List Char) (x : List Char) (c : Char)
    (h : cut.contains c = true) : trimCharsR cut (x ++ [c]) = trimCharsR cut x := by
  rw [trimCharsR_eq_rdropWhile, trimCharsR_eq_rdropWhile]
  exact List.rdropWhile_concat_pos _ _ _ h

theorem readLine_cases (l : List Char) :
    readLine l = l.takeWhile (fun c => c ≠ '\n') ∨
    readLine l = l.takeWhile (fun c => c ≠ '\n') ++ ['\n'] := by
  induction l with
  | nil => exact Or.inl rfl
  | cons c rest ih =>
    by_cases h : c = '\n'
    · subst h
      right
      simp [readLine, List.takeWhile]
    · rcases ih with h1 | h1
      · left
        simp [readLine, h, List.takeWhile, h1]
      · right
        simp [readLine, h, List.takeWhile, h1]

theorem trimChars_readLine (l : List Char) :
    trimChars cutset (readLine l) =
      trimChars cutset (l.takeWhile (fun c => c ≠ '\n')) := by
  rcases readLine_cases l with h | h
  · rw [h]
  · rw [h]
    unfold trimChars
    rw [trimCharsR_concat_mem cutset _ '\n' (by decide)]

theorem readLine_of_no_newline (l : List Char) (h : ∀ c ∈ l, c ≠ '\n') :
    readLine l = l := by
  induction l with
  | nil => rfl
  | cons c rest ih =>
    unfold readLine
    rw [if_neg (h c (List.mem_cons_self c rest))]
    rw [ih (fun x hx => h x (List.mem_cons_of_mem c hx))]

theorem readTrimLine_idem (s : String) :
    readTrimLine (readTrimLine s) = readTrimLine s := by
  unfold readTrimLine
  have hdata : (String.mk (trimChars cutset (readLine s.data))).data =
      trimChars cutset (readLine s.data) := rfl
  rw [hdata]
  have hnl : ∀ c ∈ trimChars cutset (readLine s.data), c ≠ '\n' := by
    intro c hc
    rw [trimChars_readLine s.data] at hc
    have h1 := mem_of_mem_trimChars hc
    have h2 := List.mem_takeWhile_imp h1
    simpa using h2
  rw [readLine_of_no_newline _ hnl]
  rw [trimChars_idem]

/-! ## C7: architecture detection -/

/-- C7: for every path string, architecture detection is a
case-insensitive substring search: the classification is 64-bit exactly
when the lowercased path contains `"x64"` or `"amd64"`, and 32-bit
otherwise; in particular paths containing `X64`, `x64` or `AMD64`
classify 64-bit, and the spec's `x86` and token-free examples classify
32-bit. -/
theorem archDetect_case_insensitive_substring :
    ∀ p : String,
    (archDetect p = ArchX64 ↔
      (containsStr (lowerStr p) "x64" = true ∨
        containsStr (lowerStr p) "amd64" = true)) ∧
    (archDetect p = ArchX86 ↔
      ¬(containsStr (lowerStr p) "x64" = true ∨
        containsStr (lowerStr p) "amd64" = true)) ∧
    archDetect "C:\\build\\X64\\foo.pdb" = ArchX64 ∧
    archDetect "C:\\build\\x64\\foo.pdb" = ArchX64 ∧
    archDetect "C:\\build\\AMD64\\foo.pdb" = ArchX64 ∧
    archDetect "C:\\build\\x86\\foo.pdb" = ArchX86 ∧
    archDetect "C:\\build\\anything\\foo.pdb" = ArchX86 := by
  intro p
  have hne : ArchX64 ≠ ArchX86 := by decide
  have hcond : (["x64", "amd64"].any (fun tok => containsStr (lowerStr p) tok)) =
      (containsStr (lowerStr p) "x64" || containsStr (lowerStr p) "amd64") := by
    simp [List.any]
  refine ⟨?_, ?_, by decide, by decide, by decide, by decide, by decide⟩
  · unfold archDetect
    rw [hcond]
    by_cases h : (containsStr (lowerStr p) "x64" ||
        containsStr (lowerStr p) "amd64") = true
    · rw [if_pos h]
      simp only [Bool.or_eq_true] at h
      exact ⟨fun _ => h, fun _ => rfl⟩
    · rw [if_neg (by simpa using h)]
      simp only [Bool.or_eq_true] at h
      exact ⟨fun habs => absurd habs.symm hne, fun habs => absurd habs h⟩
  · unfold archDetect
    rw [hcond]
    by_cases h : (containsStr (lowerStr p) "x64" ||
        containsStr (lowerStr p) "amd64") = true
    · rw [if_pos h]
      simp only [Bool.or_eq_true] at h
      exact ⟨fun habs => absurd habs hne, fun habs => absurd h habs⟩
    · rw [if_neg (by simpa using h)]
      simp only [Bool.or_eq_true] at h
      exact ⟨fun _ => h, fun _ => rfl⟩

/-! ## C8: `GetLatestID` never fails -/

/-- C8: for every state of the `lastid` pointer file, `GetLatestID`
never fails: an unreadable file yields the empty string, and a readable
one yields its first line trimmed of spaces, carriage returns and
newlines (the spec-side reading `specFirstLineTrimmed`). -/
theorem getLatestID_total :
    GetLatestID none = "" ∧
    ∀ c : String, GetLatestID (some c) = specFirstLineTrimmed c := by
  constructor
  · rfl
  · intro c
    show readTrimLine c = specFirstLineTrimmed c
    unfold readTrimLine specFirstLineTrimmed
    rw [trimChars_readLine]

/-! ## C9: snapshot round trip -/

theorem decodeChars_encode (l : List Char) (rest : List SnapTok) :
    decodeChars l.length (l.map (Sum.inr : Char → SnapTok) ++ rest) =
      some (l, rest) := by
  induction l with
  | nil => rfl
  | cons c t ih => simp [decodeChars, ih]

theorem decodeStr_encode (s : String) (rest : List SnapTok) :
    decodeStr (encodeStr s ++ rest) = some (s, rest) := by
  show Option.map (fun p => (String.mk p.1, p.2))
      (decodeChars s.data.length (s.data.map (Sum.inr : Char → SnapTok) ++ rest)) =
    some (s, rest)
  rw [decodeChars_encode]
  rfl

/-- C9: for every `Branch` record, `Persist` followed by `Load` on a
fresh registry instance reproduces an equal `Branch` record — store
path, build path, latest-build pointer, counts and the remaining
metadata all round-trip (encode then decode is the identity). -/
theorem persist_load_roundtrip : ∀ b : Branch, Load (Persist b) = some b := by
  intro b
  show decodeBranch (encodeBranch b) = some b
  unfold encodeBranch decodeBranch
  rw [List.append_assoc, List.append_assoc, List.append_assoc,
      List.append_assoc, List.append_assoc]
  rw [decodeStr_encode]
  simp only [Option.bind_eq_bind, Option.some_bind]
  rw [decodeStr_encode]
  simp only [Option.some_bind]
  rw [decodeStr_encode]
  simp only [Option.some_bind]
  rw [decodeStr_encode]
  simp only [Option.some_bind]
  rw [decodeStr_encode]
  simp only [Option.some_bind]
  rw [decodeStr_encode]
  simp only [Option.some_bind]

/-! ## Build-history parser lemmas -/

theorem lineToBuild_isSome (line : String) :
    (lineToBuild line).isSome = wellFormed line := by
  unfold lineToBuild wellFormed
  rcases Nat.lt_or_ge (splitFields ',' (trimStr crlf line)).length 8 with h | h
  · rw [if_pos h]
    simp [Nat.not_le.mpr h]
  · rw [if_neg (Nat.not_lt.mpr h)]
    simp [h]

theorem parseBuildsLoop_ok (st : SyncState) (total : Nat) (lines : List String) :
    (parseBuildsLoop (fun _ => none) st total lines).1 =
      total + lines.countP wellFormed ∧
    (parseBuildsLoop (fun _ => none) st total lines).2.1 = none := by
  induction lines generalizing st total with
  | nil => simp [parseBuildsLoop]
  | cons line rest ih =>
    cases hlb : lineToBuild line with
    | none =>
      have hw : wellFormed line = false := by
        rw [← lineToBuild_isSome, hlb]
        rfl
      unfold parseBuildsLoop
      rw [hlb]
      rcases ih st total with ⟨h1, h2⟩
      refine ⟨?_, h2⟩
      rw [h1, List.countP_cons, hw]
      simp
    | some bd =>
      have hw : wellFormed line = true := by
        rw [← lineToBuild_isSome, hlb]
        rfl
      unfold parseBuildsLoop
      rw [hlb]
      rcases ih { addBuildReg st bd with
                  branch := { (addBuildReg st bd).branch with
                              LatestBuild := bd.Version } } (total + 1) with ⟨h1, h2⟩
      refine ⟨?_, h2⟩
      rw [h1, List.countP_cons, hw]
      simp
      omega

theorem parseBuildsLoop_count (handler : Build → Option String) :
    ∀ (lines : List String) (st : SyncState) (total : Nat),
    st.branch.BuildsCount = total →
    (parseBuildsLoop handler st total lines).2.2.branch.BuildsCount =
      (parseBuildsLoop handler st total lines).1 := by
  intro lines
  induction lines with
  | nil =>
    intro st total h
    simpa [parseBuildsLoop] using h
  | cons line rest ih =>
    intro st total h
    cases hlb : lineToBuild line with
    | none =>
      simp only [parseBuildsLoop, hlb]
      exact ih st total h
    | some bd =>
      cases hh : handler bd with
      | some e =>
        simp only [parseBuildsLoop, hlb, hh]
        simp [addBuildReg, h]
      | none =>
        simp only [parseBuildsLoop, hlb, hh]
        apply ih
        simp [addBuildReg, h]

theorem replayLoop_state (handler : Build → Option String) :
    ∀ (bl : List (String × Build)) (st : SyncState) (total : Nat),
    (replayLoop handler st total bl).2.2 = st := by
  intro bl
  induction bl with
  | nil => intro st total; rfl
  | cons p rest ih =>
    intro st total
    unfold replayLoop
    cases handler p.2 with
    | some e => rfl
    | none => exact ih st (total + 1)

/-! ## C3: history parsing, positional field mapping, sample scenario -/

/-- C3: with an empty in-memory registry and a readable history file,
`ParseBuilds` (default callback) succeeds and produces exactly one
`Build` per well-formed line (at least 8 comma-separated fields),
skipping malformed lines; a well-formed line maps positionally — field 0
to `ID`, fields 3 and 4 joined by a space parsed as `MM/DD/YYYY
HH:MM:SS` and reformatted (kept verbatim on parse failure) to `Date`,
and fields 5, 6, 7 unquoted to `Branch`, `Version`, `Comment`; the
spec's sample line yields the sample build, and a single-digit hour —
accepted by Go's non-padded hour token — is reformatted zero-padded. -/
theorem parseBuilds_positional :
    ∀ (st : SyncState) (lines : List String) (l : String) (fs : List String),
    (st.builds = [] →
      (ParseBuilds none st (some lines)).1 = lines.countP wellFormed ∧
      (ParseBuilds none st (some lines)).2.1 = none) ∧
    (splitFields ',' (trimStr crlf l) = fs → 8 ≤ fs.length →
      lineToBuild l =
        some { ID := fs.getD 0 ""
               Date := rebuildDate (fs.getD 3 "" ++ " " ++ fs.getD 4 "")
               Branch := trimStr quoteCut (fs.getD 5 "")
               Version := trimStr quoteCut (fs.getD 6 "")
               Comment := trimStr quoteCut (fs.getD 7 "") }) ∧
    lineToBuild sampleHistoryLine = some sampleBuild ∧
    rebuildDate "07/04/2017 1:44:14" = "2017-07-04 01:44:14" := by
  intro st lines l fs
  refine ⟨?_, ?_, by decide, by decide⟩
  · intro hb
    unfold ParseBuilds
    rw [if_neg (by simp [hb])]
    have h := parseBuildsLoop_ok
      { st with branch := { st.branch with BuildsCount := 0 } } 0 lines
    simpa using h
  · intro hfs hlen
    unfold lineToBuild
    rw [hfs, if_neg (Nat.not_lt.mpr hlen)]

/-- Witness for C3 at the fresh registry and the spec's sample line. -/
theorem parseBuilds_positional_witness :
    (ParseBuilds none st0 (some [sampleHistoryLine])).1 = 1 ∧
    lineToBuild sampleHistoryLine = some sampleBuild := by
  have h := parseBuilds_positional st0 [sampleHistoryLine] sampleHistoryLine
    sampleFields
  refine ⟨?_, h.2.2.1⟩
  rw [(h.1 rfl).1]
  decide

/-! ## C10: callback failure in `ParseBuilds` commits before propagating -/

theorem parseBuildsLoop_cb_fail (handler : Build → Option String) :
    ∀ (lines : List String) (st : SyncState) (total t : Nat) (er : PBErr)
      (st' : SyncState),
    st.branch.BuildsCount = total →
    parseBuildsLoop handler st total lines = (t, some er, st') →
    ∃ msg bd, er = PBErr.cb msg ∧ handler bd = some msg ∧
      List.lookup bd.ID st'.builds = some bd ∧
      st'.branch.LatestBuild = bd.Version ∧
      st'.branch.BuildsCount = t ∧ total < t := by
  intro lines
  induction lines with
  | nil =>
    intro st total t er st' hcnt hrun
    simp [parseBuildsLoop] at hrun
  | cons line rest ih =>
    intro st total t er st' hcnt hrun
    cases hlb : lineToBuild line with
    | none =>
      simp only [parseBuildsLoop, hlb] at hrun
      exact ih st total t er st' hcnt hrun
    | some bd =>
      cases hh : handler bd with
      | some e =>
        simp only [parseBuildsLoop, hlb, hh, Prod.mk.injEq,
          Option.some.injEq] at hrun
        obtain ⟨ht, her, hst⟩ := hrun
        refine ⟨e, bd, her.symm, hh, ?_, ?_, ?_, ?_⟩
        · rw [← hst]
          simp [addBuildReg, mapInsert]
        · rw [← hst]
        · rw [← hst, ← ht]
          simp [addBuildReg, hcnt]
        · omega
      | none =>
        simp only [parseBuildsLoop, hlb, hh] at hrun
        have hcnt' :
            (({ addBuildReg st bd with
                branch := { (addBuildReg st bd).branch with
                            LatestBuild := bd.Version } } :
              SyncState)).branch.BuildsCount = total + 1 := by
          simp [addBuildReg, hcnt]
        obtain ⟨msg, bd', h1, h2, h3, h4, h5, h6⟩ :=
          ih _ (total + 1) t er st' hcnt' hrun
        exact ⟨msg, bd', h1, h2, h3, h4, h5, by omega⟩

/-- C10: when the in-memory map is empty and the history file is
readable, a callback failure inside `ParseBuilds` propagates only after
the failing line's `Build` has been inserted into the registry map,
`BuildsCount` incremented (it equals the returned count), and the
latest-build pointer advanced to that build's version; the returned
count includes the build the callback failed on (it is at least 1 and
counts that build). -/
theorem parseBuilds_cb_failure_committed :
    ∀ (handler : Build → Option String) (st : SyncState)
      (lines : List String) (t : Nat) (er : PBErr) (st' : SyncState),
    st.builds = [] →
    ParseBuilds (some handler) st (some lines) = (t, some er, st') →
    ∃ msg bd, er = PBErr.cb msg ∧ handler bd = some msg ∧
      List.lookup bd.ID st'.builds = some bd ∧
      st'.branch.LatestBuild = bd.Version ∧
      st'.branch.BuildsCount = t ∧ 1 ≤ t := by
  intro handler st lines t er st' hb hrun
  unfold ParseBuilds at hrun
  rw [if_neg (by simp [hb])] at hrun
  have h0 : (({ st with branch := { st.branch with BuildsCount := 0 } } :
      SyncState)).branch.BuildsCount = 0 := rfl
  obtain ⟨msg, bd, h1, h2, h3, h4, h5, h6⟩ :=
    parseBuildsLoop_cb_fail handler lines _ 0 t er st' h0 hrun
  exact ⟨msg, bd, h1, h2, h3, h4, h5, by omega⟩

/-- Witness for C10: the always-failing callback on the sample line. -/
theorem parseBuilds_cb_failure_committed_witness :
    ∃ msg bd, PBErr.cb "stop" = PBErr.cb msg ∧ hFailStop bd = some msg ∧
      List.lookup bd.ID c10After.builds = some bd ∧
      c10After.branch.LatestBuild = bd.Version ∧
      c10After.branch.BuildsCount = 1 ∧ 1 ≤ 1 :=
  parseBuilds_cb_failure_committed hFailStop st0 [sampleHistoryLine] 1
    (PBErr.cb "stop") c10After rfl (by decide)

/-! ## `AddBuild` stage lemmas -/

theorem stageAndCommit_error (env : SyncEnv) (st : SyncState) (latest : String)
    (e : SyncErr) (h : (stageAndCommit env st latest).1 = Except.error e) :
    (stageAndCommit env st latest).2.builds = st.builds ∧
    (stageAndCommit env st latest).2.branch.BuildsCount =
      st.branch.BuildsCount := by
  unfold stageAndCommit at h ⊢
  split_ifs at h ⊢ <;> simp_all [clearStaging]

theorem stageAndCommit_count (env : SyncEnv) (st : SyncState) (latest : String) :
    st.branch.BuildsCount ≤ (stageAndCommit env st latest).2.branch.BuildsCount := by
  unfold stageAndCommit
  split_ifs <;> simp [clearStaging, addBuildReg]

theorem stageAndCommit_staging (env : SyncEnv) (st : SyncState)
    (latest : String) (hm : env.mkdirOk = true) :
    (stageAndCommit env st latest).2.stagingExists = false := by
  unfold stageAndCommit
  split_ifs <;> simp_all [clearStaging]

theorem stageAndCommit_ok (env : SyncEnv) (st : SyncState) (latest : String)
    (st' : SyncState) (h : stageAndCommit env st latest = (Except.ok (), st')) :
    st'.remoteLatest = st.remoteLatest ∧ st'.localLatest = some latest := by
  unfold stageAndCommit at h
  split_ifs at h <;> simp only [Prod.mk.injEq] at h
  any_goals exact Except.noConfusion h.1
  rw [← h.2]
  exact ⟨rfl, rfl⟩

theorem AddBuild_resolve_none (env : SyncEnv) (v : String) (st : SyncState)
    (hr : resolveLatest v st = none) :
    AddBuild env v st = (Except.error SyncErr.invalidRemote, st) := by
  unfold AddBuild
  rw [hr]

theorem AddBuild_resolve_some (env : SyncEnv) (v : String) (st : SyncState)
    (latest : String) (hr : resolveLatest v st = some latest) :
    AddBuild env v st =
      if v = "" ∧ latest = localLatestVal st then (Except.ok (), st)
      else if (getBuild st.builds latest "").isSome then (Except.ok (), st)
      else stageAndCommit env st latest := by
  unfold AddBuild
  rw [hr]

theorem addBuild_count_mono (env : SyncEnv) (v : String) (st : SyncState) :
    st.branch.BuildsCount ≤ (AddBuild env v st).2.branch.BuildsCount := by
  cases hr : resolveLatest v st with
  | none => rw [AddBuild_resolve_none env v st hr]
  | some latest =>
    rw [AddBuild_resolve_some env v st latest hr]
    by_cases h1 : v = "" ∧ latest = localLatestVal st
    · rw [if_pos h1]
    · rw [if_neg h1]
      by_cases h2 : (getBuild st.builds latest "").isSome = true
      · rw [if_pos h2]
      · rw [if_neg h2]
        exact stageAndCommit_count env st latest

/-! ## C2: `BuildsCount` is not monotone across `ParseBuilds` -/

/-- C2 counterexample: a registry whose snapshot-loaded `BuildsCount` is
1 while the in-memory map is empty; re-parsing an empty (readable)
history file resets `BuildsCount` to 0, strictly decreasing it, so not
every non-deleting operation leaves `BuildsCount` ≥ its prior value. -/
theorem parseBuilds_decreases_buildsCount :
    (ParseBuilds none c2State (some [])).2.2.branch.BuildsCount <
      c2State.branch.BuildsCount := by decide

/-- C2 amended: `BuildsCount` never decreases under `addBuild` and
`AddBuild`, and the in-memory replay path of `ParseBuilds` leaves the
state unchanged; but the file path of `ParseBuilds` (empty in-memory
map, readable history) resets `BuildsCount` and recomputes it as the
returned parsed-line count, which may be smaller than its previous
value. -/
theorem buildsCount_evolution :
    ∀ (st : SyncState) (bd : Build) (env : SyncEnv) (v : String)
      (hOpt : Option (Build → Option String)) (hist : Option (List String))
      (lines : List String),
    st.branch.BuildsCount ≤ (addBuildReg st bd).branch.BuildsCount ∧
    st.branch.BuildsCount ≤ (AddBuild env v st).2.branch.BuildsCount ∧
    (st.builds ≠ [] → (ParseBuilds hOpt st hist).2.2 = st) ∧
    (st.builds = [] →
      (ParseBuilds hOpt st (some lines)).2.2.branch.BuildsCount =
        (ParseBuilds hOpt st (some lines)).1) := by
  intro st bd env v hOpt hist lines
  refine ⟨?_, addBuild_count_mono env v st, ?_, ?_⟩
  · simp [addBuildReg]
  · intro hb
    unfold ParseBuilds
    rw [if_pos hb]
    exact replayLoop_state _ st.builds st 0
  · intro hb
    unfold ParseBuilds
    rw [if_neg (by simp [hb])]
    exact parseBuildsLoop_count _ lines _ 0 rfl

/-- Witness for C2's amended claim: the replay path on a loaded
registry, the file path on a fresh one, and `AddBuild` monotonicity. -/
theorem buildsCount_evolution_witness :
    (ParseBuilds none c1State none).2.2 = c1State ∧
    (ParseBuilds none st0 (some [sampleHistoryLine])).2.2.branch.BuildsCount =
      (ParseBuilds none st0 (some [sampleHistoryLine])).1 ∧
    st0.branch.BuildsCount ≤ (AddBuild envOk "" st0).2.branch.BuildsCount := by
  refine ⟨?_, ?_, ?_⟩
  · exact (buildsCount_evolution c1State sampleBuild envOk "" none none
      []).2.2.1 (by decide)
  · exact (buildsCount_evolution st0 sampleBuild envOk "" none none
      [sampleHistoryLine]).2.2.2 rfl
  · exact (buildsCount_evolution st0 sampleBuild envOk "" none none []).2.1

/-! ## C6: failures abort with nothing committed; staging is removed -/

/-- C6: every `AddBuild` failure (copy, extract, tool, pointer-update,
or any other stage) aborts the operation with no build committed — the
builds map and `BuildsCount` are unchanged — and on every exit taken
after the staging directory was created (the call got past the early
no-op exits and `MkdirAll` succeeded) the staging subdirectory no longer
exists. -/
theorem addBuild_failure_atomic_cleanup :
    ∀ (env : SyncEnv) (v : String) (st : SyncState) (e : SyncErr),
    ((AddBuild env v st).1 = Except.error e →
      (AddBuild env v st).2.builds = st.builds ∧
      (AddBuild env v st).2.branch.BuildsCount = st.branch.BuildsCount) ∧
    (earlyStop v st = false → env.mkdirOk = true →
      (AddBuild env v st).2.stagingExists = false) := by
  intro env v st e
  constructor
  · intro herr
    cases hr : resolveLatest v st with
    | none =>
      rw [AddBuild_resolve_none env v st hr]
      exact ⟨rfl, rfl⟩
    | some latest =>
      rw [AddBuild_resolve_some env v st latest hr] at herr ⊢
      by_cases h1 : v = "" ∧ latest = localLatestVal st
      · rw [if_pos h1] at herr
        simp at herr
      · rw [if_neg h1] at herr ⊢
        by_cases h2 : (getBuild st.builds latest "").isSome = true
        · rw [if_pos h2] at herr
          simp at herr
        · rw [if_neg h2] at herr ⊢
          exact stageAndCommit_error env st latest e herr
  · intro hes hm
    unfold earlyStop at hes
    cases hr : resolveLatest v st with
    | none =>
      rw [hr] at hes
      simp at hes
    | some latest =>
      rw [hr] at hes
      simp only [Bool.or_eq_false_iff, decide_eq_false_iff_not] at hes
      rw [AddBuild_resolve_some env v st latest hr,
          if_neg hes.1, if_neg (by simp [hes.2])]
      exact stageAndCommit_staging env st latest hm

/-- Witness for C6: the copy stage fails while syncing a new build;
nothing is committed and staging is removed. -/
theorem addBuild_failure_atomic_cleanup_witness :
    ((AddBuild envCopyFail "" st6).2.builds = st6.builds ∧
      (AddBuild envCopyFail "" st6).2.branch.BuildsCount =
        st6.branch.BuildsCount) ∧
    (AddBuild envCopyFail "" st6).2.stagingExists = false := by
  have h := addBuild_failure_atomic_cleanup envCopyFail "" st6 SyncErr.copyFail
  exact ⟨h.1 (by decide), h.2 (by decide) (by decide)⟩

/-! ## C5: `AddBuild` idempotence -/

/-- C5: `AddBuild` is idempotent for an already-current or
already-committed build: with an empty argument, when the version
resolved from the build server's pointer equals the local pointer the
call is a no-op success; when the registry already holds a build for the
resolved version the call is a no-op success; and after any successful
`AddBuild("")`, a second `AddBuild("")` with the remote pointer
unchanged succeeds and leaves the whole state — `BuildsCount`
included — unchanged. -/
theorem addBuild_idempotent :
    ∀ (env env2 : SyncEnv) (st st' : SyncState),
    (resolveLatest "" st = some (localLatestVal st) →
      AddBuild env "" st = (Except.ok (), st)) ∧
    (∀ (v latest : String), resolveLatest v st = some latest →
      (getBuild st.builds latest "").isSome = true →
      AddBuild env v st = (Except.ok (), st)) ∧
    (AddBuild env "" st = (Except.ok (), st') →
      AddBuild env2 "" st' = (Except.ok (), st')) := by
  intro env env2 st st'
  refine ⟨?_, ?_, ?_⟩
  · intro hr
    rw [AddBuild_resolve_some env "" st (localLatestVal st) hr,
        if_pos ⟨rfl, rfl⟩]
  · intro v latest hr h2
    rw [AddBuild_resolve_some env v st latest hr]
    by_cases h1 : v = "" ∧ latest = localLatestVal st
    · rw [if_pos h1]
    · rw [if_neg h1, if_pos h2]
  · intro h
    cases hr : resolveLatest "" st with
    | none =>
      rw [AddBuild_resolve_none env "" st hr] at h
      simp at h
    | some latest =>
      rw [AddBuild_resolve_some env "" st latest hr] at h
      by_cases h1 : ("" : String) = "" ∧ latest = localLatestVal st
      · rw [if_pos h1] at h
        have hst : st = st' := congrArg Prod.snd h
        subst hst
        rw [AddBuild_resolve_some env2 "" st latest hr, if_pos h1]
      · rw [if_neg h1] at h
        by_cases h2 : (getBuild st.builds latest "").isSome = true
        · rw [if_pos h2] at h
          have hst : st = st' := congrArg Prod.snd h
          subst hst
          rw [AddBuild_resolve_some env2 "" st latest hr, if_neg h1, if_pos h2]
        · rw [if_neg h2] at h
          obtain ⟨hrem, hloc⟩ := stageAndCommit_ok env st latest st' h
          have hrc : ∃ rc, st.remoteLatest = some rc ∧
              readTrimLine rc = latest := by
            unfold resolveLatest at hr
            rw [if_pos rfl] at hr
            cases hrl : st.remoteLatest with
            | none =>
              rw [hrl] at hr
              simp at hr
            | some rc =>
              rw [hrl] at hr
              simp at hr
              exact ⟨rc, rfl, hr⟩
          obtain ⟨rc, hrl, hlat⟩ := hrc
          have hr2 : resolveLatest "" st' = some latest := by
            unfold resolveLatest
            rw [if_pos rfl, hrem, hrl]
            simp [hlat]
          have hloc2 : localLatestVal st' = latest := by
            unfold localLatestVal
            rw [hloc]
            show readTrimLine latest = latest
            rw [← hlat, readTrimLine_idem]
          rw [AddBuild_resolve_some env2 "" st' latest hr2,
              if_pos ⟨rfl, hloc2.symm⟩]

/-- Witness for C5: an already-current branch, a registry hit, and a
second call after a successful full sync. -/
theorem addBuild_idempotent_witness :
    AddBuild envOk "" st5 = (Except.ok (), st5) ∧
    AddBuild envOk "v2" st5r = (Except.ok (), st5r) ∧
    AddBuild envOk "" st6After = (Except.ok (), st6After) := by
  refine ⟨?_, ?_, ?_⟩
  · exact (addBuild_idempotent envOk envOk st5 st5).1 (by decide)
  · exact (addBuild_idempotent envOk envOk st5r st5r).2.1 "v2" "v2"
      (by decide) (by decide)
  · exact (addBuild_idempotent envOk envOk st6 st6After).2.2 (by decide)

/-! ## Symbol-index parser lemmas -/

theorem symFromLine_checks (excl : List String) (version : String)
    (seen : List String) (line : String) (sym : Symbol)
    (h : symFromLine excl version seen line = some sym) :
    sym.Hash ∉ seen ∧ skipFn excl sym.Name = false := by
  simp only [symFromLine] at h
  split_ifs at h with h1 h2 h3 h4
  simp only [Option.some.injEq] at h
  subst h
  exact ⟨h4, by simpa [List.getD, Bool.not_eq_true] using h3⟩

theorem emitted_hash_not_seen (excl : List String) (version : String) :
    ∀ (lines : List String) (seen : List String) (s : Symbol),
    s ∈ emitted excl version seen lines →
    s.Hash ∉ seen ∧ skipFn excl s.Name = false := by
  intro lines
  induction lines with
  | nil =>
    intro seen s hs
    simp [emitted] at hs
  | cons line rest ih =>
    intro seen s hs
    unfold emitted at hs
    cases hsym : symFromLine excl version seen line with
    | none =>
      rw [hsym] at hs
      exact ih seen s hs
    | some sym =>
      rw [hsym] at hs
      rcases List.mem_cons.mp hs with h | h
      · subst h
        exact symFromLine_checks excl version seen line s hsym
      · have hrec := ih (sym.Hash :: seen) s h
        exact ⟨fun hmem => hrec.1 (List.mem_cons_of_mem _ hmem), hrec.2⟩

theorem emitted_pairwise_hash (excl : List String) (version : String) :
    ∀ (lines : List String) (seen : List String),
    List.Pairwise (fun a b => a.Hash ≠ b.Hash) (emitted excl version seen lines) := by
  intro lines
  induction lines with
  | nil =>
    intro seen
    exact List.Pairwise.nil
  | cons line rest ih =>
    intro seen
    unfold emitted
    cases hsym : symFromLine excl version seen line with
    | none => exact ih seen
    | some sym =>
      refine List.Pairwise.cons ?_ (ih (sym.Hash :: seen))
      intro s hs heq
      have hns :=
        (emitted_hash_not_seen excl version rest (sym.Hash :: seen) s hs).1
      exact hns (heq ▸ List.mem_cons_self _ _)

theorem runSyms_characterization (excl : List String) (version : String)
    (handler : Symbol → Option String) :
    ∀ (lines : List String) (seen : List String) (total : Nat),
    runSyms excl version handler seen total lines =
      match firstFail handler (emitted excl version seen lines) with
      | none => (total + (emitted excl version seen lines).length, none)
      | some p => (total + p.1, some (PSErr.cb p.2)) := by
  intro lines
  induction lines with
  | nil =>
    intro seen total
    simp [runSyms, emitted, firstFail]
  | cons line rest ih =>
    intro seen total
    cases hsym : symFromLine excl version seen line with
    | none =>
      simp only [runSyms, emitted, hsym]
      exact ih seen total
    | some sym =>
      cases hh : handler sym with
      | some e => simp [runSyms, emitted, firstFail, hsym, hh]
      | none =>
        simp only [runSyms, emitted, firstFail, hsym, hh]
        rw [ih (sym.Hash :: seen) (total + 1)]
        cases hf : firstFail handler (emitted excl version (sym.Hash :: seen) rest) with
        | none =>
          simp [hf]
          omega
        | some p =>
          simp [hf]
          omega

theorem firstFail_accept_all (syms : List Symbol) :
    firstFail (fun _ => none) syms = none := by
  induction syms with
  | nil => rfl
  | cons s rest ih => simp [firstFail, ih]

/-! ## C1: the returned count excludes the symbol the callback failed on -/

/-- C1 counterexample: the callback fails on the first unique symbol
(`n = 1`); the claim predicts a returned partial count of 1 including
that symbol, but the call returns 0 — the increment happens only after
the callback accepts. -/
theorem parseSymbols_count_cex :
    ParseSymbols [] c1State (some [c1LineA]) "0000000001"
      (some hFailStopSym) = (0, some (PSErr.cb "boom")) ∧
    (ParseSymbols [] c1State (some [c1LineA]) "0000000001"
      (some hFailStopSym)).1 ≠ 1 := by
  constructor
  · decide
  · decide

/-- C1 amended: `ParseSymbols` (build resolved, index file readable)
returns exactly the number of unique, non-excluded symbols the callback
accepted: on success the count of all symbols constructed (step 9 order
construct, invoke, increment), and when the callback fails on the n-th
unique symbol — position `k = n − 1` in the emitted stream — the
returned partial count is `n − 1`, excluding that symbol, together with
the callback's error. -/
theorem parseSymbols_partial_count :
    ∀ (excl : List String) (st : SyncState) (lines : List String)
      (buildID : String) (handler : Symbol → Option String) (bd : Build),
    getBuild st.builds "" buildID = some bd →
    ParseSymbols excl st (some lines) buildID (some handler) =
      (match firstFail handler (emitted excl bd.Version [] lines) with
       | none => ((emitted excl bd.Version [] lines).length, none)
       | some p => (p.1, some (PSErr.cb p.2))) := by
  intro excl st lines buildID handler bd hb
  unfold ParseSymbols
  rw [hb]
  have h := runSyms_characterization excl bd.Version handler lines [] 0
  cases hf : firstFail handler (emitted excl bd.Version [] lines) with
  | none =>
    rw [hf] at h
    simpa using h
  | some p =>
    rw [hf] at h
    simpa using h

/-- Witness for C1's amended claim: the callback rejects the second of
two unique symbols, and the call returns count 1 with that error. -/
theorem parseSymbols_partial_count_witness :
    ParseSymbols [] c1State (some [c1LineA, c1LineB]) "0000000001"
      (some c1HandlerB) =
      (match firstFail c1HandlerB
          (emitted [] c1Build.Version [] [c1LineA, c1LineB]) with
       | none => ((emitted [] c1Build.Version [] [c1LineA, c1LineB]).length, none)
       | some p => (p.1, some (PSErr.cb p.2))) :=
  parseSymbols_partial_count [] c1State [c1LineA, c1LineB] "0000000001"
    c1HandlerB c1Build (by decide)

/-! ## C4: hash dedup and case-insensitive exclusion -/

/-- C4: over the symbol stream one `ParseSymbols` call hands to its
callback, no two symbols share a hash (first occurrence wins, dedup
scoped to the call), and — when the configured exclude list holds
lowercase entries, as `config` supplies it — a name on the exclude list
never appears, the membership test being insensitive to the case of the
input name; with the accept-all callback, `ParseSymbols` returns exactly
the length of that stream. -/
theorem parseSymbols_dedup_exclusion :
    ∀ (excl : List String) (version : String) (lines : List String)
      (st : SyncState) (buildID : String) (bd : Build),
    (∀ v ∈ excl, lowerStr v = v) →
    List.Pairwise (fun a b => a.Hash ≠ b.Hash)
      (parseSymbolsStream excl version lines) ∧
    (∀ s ∈ parseSymbolsStream excl version lines,
      s.Name ∉ excl ∧ ∀ n ∈ excl, lowerStr s.Name ≠ n) ∧
    (getBuild st.builds "" buildID = some bd →
      ParseSymbols excl st (some lines) buildID none =
        ((parseSymbolsStream excl bd.Version lines).length, none)) := by
  intro excl version lines st buildID bd hlow
  refine ⟨emitted_pairwise_hash excl version lines [], ?_, ?_⟩
  · intro s hs
    have hskip := (emitted_hash_not_seen excl version lines [] s hs).2
    unfold skipFn at hskip
    rw [decide_eq_false_iff_not] at hskip
    constructor
    · intro hmem
      refine hskip ?_
      rw [hlow s.Name hmem]
      exact hmem
    · intro n hn heq
      exact hskip (heq ▸ hn)
  · intro hb
    unfold ParseSymbols
    rw [hb]
    have h := runSyms_characterization excl bd.Version (fun _ => none) lines [] 0
    rw [firstFail_accept_all] at h
    simpa using h

/-- Witness for C4: an exclude list with a lowercase entry, an index
with a case-variant excluded name, a duplicate hash, and two retained
symbols. -/
theorem parseSymbols_dedup_exclusion_witness :
    List.Pairwise (fun a b => a.Hash ≠ b.Hash)
      (parseSymbolsStream ["excluded.pdb"] "4175.2-538" c4Lines) ∧
    (∀ s ∈ parseSymbolsStream ["excluded.pdb"] "4175.2-538" c4Lines,
      s.Name ∉ ["excluded.pdb"] ∧
      ∀ n ∈ ["excluded.pdb"], lowerStr s.Name ≠ n) ∧
    ParseSymbols ["excluded.pdb"] c1State (some c4Lines) "0000000001" none =
      ((parseSymbolsStream ["excluded.pdb"] c1Build.Version c4Lines).length,
        none) := by
  have h := parseSymbols_dedup_exclusion ["excluded.pdb"] "4175.2-538"
    c4Lines c1State "0000000001" c1Build (by decide)
  exact ⟨h.1, h.2.1, h.2.2 (by decide)⟩

end GoSymbols
